import Mathlib

/-!
# node-buspirate — verification of the protocol engine

Shallow embedding of the protocol engine of `lib/buspirate.js` and
`lib/uart.js` (Bus Pirate serial driver): the stream matcher
(`expect` waiters and the `port.on('data')` feed cycle), the mode state
machine (`enter_binmode`, `switch_mode`, `config_periph`), and the UART
sub-mode driver (`write_block`, `write`, `uart_bridge`).

Bytes are modelled as `Nat` (all protocol constants are < 256 and no
arithmetic overflows a byte), buffers as `List Nat`, and each pending
`expect` promise as a `Waiter` record whose eventual resolution is logged
in a `resolutions` list.
-/

namespace BusPirate

/-! ## Stream matcher

`BusPirate.prototype.expect(data)` converts its argument to a `Buffer`
(a string or array becomes its byte sequence, a number a one-byte buffer)
and unshifts a waiter closure onto `this.waiters`; the array is iterated
backwards by the data handler, so waiters run oldest-registered first.
We keep the list oldest-first, so registration appends at the end.

Note: the `data instanceof RegExp` branch inside the waiter closure of
`expect` is unreachable, because `expect` has already converted `data`
to a `Buffer` before the closure is created; only the byte-comparison
path can execute. -/

/-- One pending `expect` call: the converted pattern (`new Buffer(data)`)
plus an identifier for the promise it will resolve. -/
structure Waiter where
  id : Nat
  pattern : List Nat
deriving DecidableEq, Repr

/-- How a waiter's promise ends: `resolve(data)` with the matched bytes,
or (hypothetically) rejection with an error. The source never rejects a
waiter's promise, so `abandoned` entries are never produced by the code
modelled here. -/
inductive Outcome where
  | matched (bytes : List Nat)
  | abandoned (msg : String)
deriving DecidableEq, Repr

/-- Engine state relevant to the stream matcher: `this.waiters`
(oldest-registered first), `this.data_buffer`, and a log of promise
resolutions in the order they happened. -/
structure MatcherState where
  waiters : List Waiter
  buffer : List Nat
  resolutions : List (Nat × Outcome)
deriving DecidableEq, Repr

/-- The body of the waiter closure in `expect`, run on the current buffer:
returns `(some bytes, rest)` when it resolves with `bytes` leaving `rest`
of the buffer, `(none, buffer)` when it stays pending.

* `data_received.length < data.length` → stay pending, buffer unchanged;
* `data.length === 0` → `data = data_received`: resolve with the whole
  buffer, then `data_received.slice(data.length)` leaves nothing;
* byte-for-byte comparison from index 0: mismatch → pending, unchanged;
  full match → resolve with the pattern bytes, `slice(data.length)`
  drops exactly `pattern.length` bytes from the front. -/
def runWaiter (pat buf : List Nat) : Option (List Nat) × List Nat :=
  if buf.length < pat.length then
    (none, buf)
  else if pat.length = 0 then
    (some buf, buf.drop buf.length)
  else if buf.take pat.length = pat then
    (some pat, buf.drop pat.length)
  else
    (none, buf)

/-- The data handler's loop `for(i = waiters.length-1; i >= 0; i--)
{ data_buffer = waiters[i](data_buffer, i, waiters) }`: the JS array is
newest-first and iterated backwards, and a satisfied waiter splices only
itself out at the current index, so this is exactly a left-to-right pass
over the oldest-first list, threading the shrinking buffer through.
Returns the surviving waiters, the final buffer, and the resolutions in
the order they fired. -/
def runChain : List Waiter → List Nat → List Waiter × List Nat × List (Nat × Outcome)
  | [], buf => ([], buf, [])
  | w :: ws, buf =>
    match runWaiter w.pattern buf with
    | (none, buf') =>
      let r := runChain ws buf'
      (w :: r.1, r.2.1, r.2.2)
    | (some bytes, buf') =>
      let r := runChain ws buf'
      (r.1, r.2.1, (w.id, Outcome.matched bytes) :: r.2.2)

/-- The `port.on('data')` handler: only `if(self.waiters.length > 0)` does
it concat the chunk onto `data_buffer` and run the waiter chain; with no
pending waiters the chunk is discarded and the state is untouched. -/
def feed (s : MatcherState) (chunk : List Nat) : MatcherState :=
  if s.waiters.length > 0 then
    let r := runChain s.waiters (s.buffer ++ chunk)
    ⟨r.1, r.2.1, s.resolutions ++ r.2.2⟩
  else
    s

/-- `expect`: registration appends the new waiter (JS unshifts onto the
newest-first array, which is the end of our oldest-first list). -/
def register (s : MatcherState) (id : Nat) (pat : List Nat) : MatcherState :=
  { s with waiters := s.waiters ++ [⟨id, pat⟩] }

/-- Feeding a list of chunks in order, one `data` event per chunk. -/
def feedAll (s : MatcherState) (chunks : List (List Nat)) : MatcherState :=
  chunks.foldl feed s

/-- Feeding a byte sequence one single-byte chunk at a time (one `data`
event per byte). -/
def feedBytes (s : MatcherState) (bs : List Nat) : MatcherState :=
  bs.foldl (fun t b => feed t [b]) s

/-- A textual pattern as `expect` sees it after `new Buffer(string)`:
its byte sequence (all patterns in this driver are ASCII, where the
code-point list and the UTF-8 bytes coincide). -/
def stringBytes (t : String) : List Nat :=
  t.data.map Char.toNat

/-! ## Binary-mode acquisition (`enter_binmode`)

The probe loop (`setInterval` body): each tick writes one `0x00` byte,
increments `count`, and if `count > 25` stops the interval, clears
`this.waiters`, and rejects the acquisition promise. The write happens
before the count check, so the tick on which the loop gives up has
already written. -/

/-- Number of `0x00` probe writes performed from a given `count`, when
the `'BBIO1'` acknowledgment never arrives (so only the bound stops the
loop): one write per tick, stopping after the tick that makes
`count > bound`. -/
def probeAux (bound count : Nat) : Nat :=
  if bound < count + 1 then 1 else 1 + probeAux bound (count + 1)
termination_by bound + 1 - count
decreasing_by omega

/-- Total probe writes of a full failed acquisition (`count` starts at 0;
the source's bound is 25). -/
def probeWriteCount (bound : Nat) : Nat :=
  probeAux bound 0

/-- What the exhaustion branch does to the matcher state:
`this.waiters = []` — the pending waiters are dropped from the
collection, but none of their promises is resolved or rejected (the
`reject` call rejects only the acquisition promise `p1`). The error
message is not delivered to any waiter. -/
def exhaustStep (_err : String) (s : MatcherState) : MatcherState :=
  { s with waiters := [] }

/-! ## Mode state machine

`this.mode` is a string: `''` initially, then `'binmode'`,
`'uart_bridge'`, or a sub-mode name such as `'uart'`. Each engine
operation is modelled as an atomic transition on the session (per §5 of
the design, a handshake has exclusive access to the session); the
booleans stand for the outcome of the awaited acknowledgments. -/

/-- The session state the mode machine mutates. -/
structure Session where
  mode : String
deriving DecidableEq, Repr

/-- `enter_binmode`: immediate success if already `'binmode'` or
`'uart_bridge'`; otherwise the probe/expect race either sees `'BBIO1'`
(`acquired = true`, sets `mode = 'binmode'`) or exhausts its bound
(`acquired = false`, mode unchanged). -/
def enterBinmodeStep (acquired : Bool) (s : Session) : Session :=
  if s.mode = "binmode" ∨ s.mode = "uart_bridge" then s
  else if acquired then { s with mode := "binmode" } else s

/-- `switch_mode(newmode)`: short-circuits in `'uart_bridge'`; from any
other non-`'binmode'` state it first runs `reset_console` (no mode
effect) and `enter_binmode` (outcome `acquired`); if binary mode is
held it writes `MODE_ID`, awaits `MODE_ACK` (outcome `ack`), and on
success sets `mode = MODE_NAME`. A failed acquisition rejects before
the `MODE_ID` write; a failed ack leaves the mode as it stands. -/
def switchModeStep (name : String) (acquired ack : Bool) (s : Session) : Session :=
  if s.mode = "uart_bridge" then s
  else
    let s1 := if s.mode ≠ "binmode" then enterBinmodeStep acquired s else s
    if s1.mode = "binmode" ∧ ack then { s1 with mode := name } else s1

/-- `Uart.prototype.uart_bridge`: resolves immediately if already in
bridge mode, else writes `0x0f` and unconditionally sets
`mode = 'uart_bridge'`. -/
def uartBridgeStep (s : Session) : Session :=
  if s.mode = "uart_bridge" then s else { s with mode := "uart_bridge" }

/-- `Uart.prototype.start`: `switch_mode` to the UART descriptor; the
follow-up (`setopts` or marking started) performs writes only and never
assigns `this.bp.mode`. -/
def uartStartStep (acquired ack : Bool) (s : Session) : Session :=
  switchModeStep "uart" acquired ack s

/-- `Uart.prototype.setopts`: auto-starts when not started; otherwise it
writes the baud and config bytes and awaits acks — no mode mutation. -/
def uartSetoptsStep (started acquired ack : Bool) (s : Session) : Session :=
  if started = false then uartStartStep acquired ack s else s

/-- The engine operations the session's mode can be subjected to after
construction (`config_periph`, `echo_rx` and `uart.write` perform
transport writes and matcher waits but never assign `this.mode`). -/
inductive EngineOp where
  | enterBin (acquired : Bool)
  | switchMode (name : String) (acquired ack : Bool)
  | uartBridge
  | uartStart (acquired ack : Bool)
  | uartSetopts (started acquired ack : Bool)
  | uartEcho (enabled : Bool)
  | uartWrite (buf : List Nat)
  | configPeriph
deriving DecidableEq

/-- Dispatch of one engine operation on the session mode. -/
def engineStep (op : EngineOp) (s : Session) : Session :=
  match op with
  | .enterBin acquired => enterBinmodeStep acquired s
  | .switchMode name acquired ack => switchModeStep name acquired ack s
  | .uartBridge => uartBridgeStep s
  | .uartStart acquired ack => uartStartStep acquired ack s
  | .uartSetopts started acquired ack => uartSetoptsStep started acquired ack s
  | .uartEcho _ => s
  | .uartWrite _ => s
  | .configPeriph => s

/-! ## Peripheral configuration (`config_periph`) -/

/-- Caller-supplied options: each flag may be present or absent
(`Object.assign` merges them over the defaults object). -/
structure PeriphOptsIn where
  power : Option Bool
  pullups : Option Bool
  aux : Option Bool
  mosi : Option Bool
  clk : Option Bool
  miso : Option Bool
  cs : Option Bool
deriving DecidableEq, Repr

/-- The merged options after `Object.assign(defaults, opts)`. -/
structure PeriphOpts where
  power : Bool
  pullups : Bool
  aux : Bool
  mosi : Bool
  clk : Bool
  miso : Bool
  cs : Bool
deriving DecidableEq, Repr

/-- The defaults object: every flag `false`. -/
def periphDefaults : PeriphOpts :=
  ⟨false, false, false, false, false, false, false⟩

/-- An options object with no flags supplied. -/
def noPeriphOptsIn : PeriphOptsIn :=
  ⟨none, none, none, none, none, none, none⟩

/-- `Object.assign({power: false, ...}, opts)`. -/
def mergePeriph (o : PeriphOptsIn) : PeriphOpts :=
  ⟨o.power.getD false, o.pullups.getD false, o.aux.getD false,
   o.mosi.getD false, o.clk.getD false, o.miso.getD false, o.cs.getD false⟩

/-- JavaScript boolean-to-number coercion as used by `<<`, `|` and `*`. -/
def b2n (b : Bool) : Nat :=
  if b then 1 else 0

/-- The command byte `config_periph` writes, exactly as the source
computes it:
`0x80 | (o.power << 6) | (o.pullups << 5) | (o.aux << 4) |
 (o.mosi << 3) | (o.clk < 2) | (o.miso << 1) | o.cs`.
Note the fifth term is the comparison `o.clk < 2` (not a shift): it is
`true` for both `false < 2` and `true < 2`, and coerces to `1`. -/
def configPeriphCode (o : PeriphOpts) : Nat :=
  0x80 |||
    (b2n o.power <<< 6) |||
    (b2n o.pullups <<< 5) |||
    (b2n o.aux <<< 4) |||
    (b2n o.mosi <<< 3) |||
    (if b2n o.clk < 2 then 1 else 0) |||
    (b2n o.miso <<< 1) |||
    b2n o.cs

/-- The encoding the spec describes (one distinct bit position per flag,
bit 7 fixed high): identical to `configPeriphCode` except that the clock
flag is shifted to bit 2 instead of being compared with 2. Stated from
the spec's words, for comparison with the source's computation. -/
def configPeriphCodeSpec (o : PeriphOpts) : Nat :=
  0x80 |||
    (b2n o.power <<< 6) |||
    (b2n o.pullups <<< 5) |||
    (b2n o.aux <<< 4) |||
    (b2n o.mosi <<< 3) |||
    (b2n o.clk <<< 2) |||
    (b2n o.miso <<< 1) |||
    b2n o.cs

/-! ## UART sub-mode driver (`lib/uart.js`) -/

/-- One observable protocol action of the driver: a transport write or
an `expect` registration for an acknowledgment pattern. -/
inductive Action where
  | write (bytes : List Nat)
  | expect (pat : List Nat)
deriving DecidableEq, Repr

/-- What a call to `Uart.prototype.write_block` returns: either a bare
`Error` object (`return new Error(...)` — a plain value, not a promise)
or the promise chain performing the block write, recorded as its action
trace when every awaited ack arrives. -/
inductive WBRet where
  | errValue (msg : String)
  | ok (trace : List Action)
deriving DecidableEq, Repr

/-- `write_block(buffer)`: `lenbyte = 0x10 + buffer.length - 1`; more
than 16 bytes returns a size `Error`, a driver that was never started
returns a not-started `Error`; otherwise it writes the length byte,
expects `0x1`, writes the chunk, and expects one `0x01` per chunk byte
(the `test` array built by the loop). -/
def writeBlockRet (started : Bool) (buffer : List Nat) : WBRet :=
  if buffer.length > 16 then
    .errValue "Cannot send more than 16 bytes at once"
  else if started = false then
    .errValue "Uart must be started before writing"
  else
    .ok [.write [0x10 + buffer.length - 1], .expect [0x1],
         .write buffer, .expect (List.replicate buffer.length 0x01)]

/-- The caller's view of a `write_block` call when chained with
`p.then(() => write_block(chunk))`, as `Uart.prototype.write` does:
a JS promise chain treats a returned non-promise value as fulfillment,
so the returned `Error` arrives as a *fulfilled* value (`Sum.inl msg`),
never as a rejection (`Except.error`). -/
def writeBlockCaller (started : Bool) (buffer : List Nat) :
    Except String (Sum String (List Action)) :=
  match writeBlockRet started buffer with
  | .errValue m => .ok (.inl m)
  | .ok t => .ok (.inr t)

/-- `chunkSubstr(str, 16)` from `Uart.prototype.write`:
`numChunks = Math.ceil(str.length / 16)` and
`chunks[i] = str.substr(16 * i, 16)`. -/
def chunkSubstr (l : List Nat) : List (List Nat) :=
  (List.range ((l.length + 15) / 16)).map fun i => (l.drop (16 * i)).take 16

/-- The actions a chained `write_block` performs (a returned `Error`
value performs none). -/
def blockTrace (r : WBRet) : List Action :=
  match r with
  | .errValue _ => []
  | .ok t => t

/-- `Uart.prototype.write(buffer)`: in bridge mode the data goes
straight to the transport; otherwise the payload is cut into 16-byte
chunks and each chunk goes through `write_block` in order. The trace is
the action sequence when every awaited ack arrives. -/
def uartWriteTrace (started : Bool) (mode : String) (buffer : List Nat) : List Action :=
  if mode = "uart_bridge" then [.write buffer]
  else ((chunkSubstr buffer).map fun c => blockTrace (writeBlockRet started c)).flatten

/-- Sequential execution of the chunk chain
`p = p.then(() => write_block(chunk))` with an oracle: `fails` lists,
per block in order, whether that block's promise rejects (an absent
entry means it fulfills). A rejection skips every later `then`, so the
chunks after the first failing one are never attempted; the result is
the list of chunks actually attempted. -/
def chainBlocks : List Bool → List (List Nat) → List (List Nat)
  | _, [] => []
  | [], c :: cs => c :: chainBlocks [] cs
  | f :: fs, c :: cs => if f then [c] else c :: chainBlocks fs cs

/-! ## Helper lemmas about the stream matcher -/

/-- A waiter whose nonempty pattern sits at the front of the buffer
resolves with the pattern and strips exactly its length. -/
theorem runWaiter_self_append (pat rest : List Nat) (h : pat ≠ []) :
    runWaiter pat (pat ++ rest) = (some pat, rest) := by
  unfold runWaiter
  have hlen : pat.length ≤ (pat ++ rest).length := by
    simp [List.length_append]
  rw [if_neg (by omega), if_neg (by simpa using h), if_pos (List.take_left pat rest)]
  rw [List.drop_left]

/-- Feeding the in-order concatenation of the patterns of a chain of
nonempty-pattern waiters resolves every waiter, oldest first, with its
own pattern, and consumes the whole buffer. -/
theorem runChain_flatten (ws : List Waiter) (hne : ∀ w ∈ ws, w.pattern ≠ []) :
    runChain ws (List.flatten (ws.map fun w => w.pattern)) =
      ([], [], ws.map fun w => (w.id, Outcome.matched w.pattern)) := by
  induction ws with
  | nil => simp [runChain]
  | cons w ws ih =>
    have hw : w.pattern ≠ [] := hne w (by simp)
    have hne' : ∀ x ∈ ws, x.pattern ≠ [] := fun x hx => hne x (by simp [hx])
    simp only [List.map_cons, List.flatten_cons, runChain,
      runWaiter_self_append w.pattern _ hw, ih hne']

/-- A feed on a state with no pending waiters discards the chunk. -/
theorem feed_no_waiters (s : MatcherState) (h : s.waiters = []) (c : List Nat) :
    feed s c = s := by
  simp [feed, h]

/-- With no pending waiters, any sequence of byte feeds is discarded. -/
theorem feedBytes_no_waiters (s : MatcherState) (h : s.waiters = []) (bs : List Nat) :
    feedBytes s bs = s := by
  induction bs with
  | nil => rfl
  | cons b bs ih =>
    show feedBytes (feed s [b]) bs = s
    rw [feed_no_waiters s h]
    exact ih

/-- Complete case analysis of one feed against a single pending waiter
with a nonempty pattern: it resolves exactly when the pattern heads the
accumulated buffer, consuming the pattern's length. -/
theorem feed_single_state (p : List Nat) (hp : p ≠ []) (id : Nat)
    (acc c : List Nat) (rs : List (Nat × Outcome)) :
    feed ⟨[⟨id, p⟩], acc, rs⟩ c =
      if (acc ++ c).take p.length = p
      then ⟨[], (acc ++ c).drop p.length, rs ++ [(id, Outcome.matched p)]⟩
      else ⟨[⟨id, p⟩], acc ++ c, rs⟩ := by
  have hp' : p.length ≠ 0 := by simpa using hp
  unfold feed runChain runWaiter
  simp only [List.length_cons, List.length_nil, Nat.zero_add, Nat.lt_irrefl,
    if_pos (by omega : 0 < 1)]
  by_cases hlen : (acc ++ c).length < p.length
  · rw [if_pos hlen]
    have htk : (acc ++ c).take p.length = acc ++ c :=
      List.take_of_length_le (Nat.le_of_lt hlen)
    rw [if_neg]
    · simp [runChain]
    · rw [htk]
      intro hcontra
      have := congrArg List.length hcontra
      simp at this
      simp only [List.length_append] at hlen
      omega
  · rw [if_neg hlen, if_neg hp']
    by_cases hmatch : (acc ++ c).take p.length = p
    · rw [if_pos hmatch, if_pos hmatch]
      simp [runChain]
    · rw [if_neg hmatch, if_neg hmatch]
      simp [runChain]

/-- Byte-at-a-time feeding of a single nonempty-pattern waiter: the final
resolution log depends only on whether the pattern heads the total byte
sequence, not on where the feeds are cut. -/
theorem feedBytes_single (p : List Nat) (hp : p ≠ []) (id : Nat) :
    ∀ (bs acc : List Nat) (rs : List (Nat × Outcome)),
      acc.take p.length ≠ p →
      (feedBytes ⟨[⟨id, p⟩], acc, rs⟩ bs).resolutions =
        if (acc ++ bs).take p.length = p
        then rs ++ [(id, Outcome.matched p)] else rs := by
  intro bs
  induction bs with
  | nil =>
    intro acc rs hacc
    rw [if_neg (by simpa using hacc)]
    rfl
  | cons b bs ih =>
    intro acc rs hacc
    show (feedBytes (feed ⟨[⟨id, p⟩], acc, rs⟩ [b]) bs).resolutions = _
    rw [feed_single_state p hp id acc [b] rs]
    by_cases hmatch : (acc ++ [b]).take p.length = p
    · rw [if_pos hmatch]
      rw [feedBytes_no_waiters _ rfl]
      have hplen : p.length ≤ (acc ++ [b]).length := by
        have := congrArg List.length hmatch
        simp only [List.length_take] at this
        omega
      have hfull : (acc ++ b :: bs).take p.length = p := by
        have : acc ++ b :: bs = (acc ++ [b]) ++ bs := by simp
        rw [this, List.take_append_of_le_length hplen]
        exact hmatch
      rw [if_pos hfull]
    · rw [if_neg hmatch]
      rw [ih (acc ++ [b]) rs hmatch]
      have : (acc ++ [b]) ++ bs = acc ++ b :: bs := by simp
      rw [this]

/-- The buffer a waiter chain leaves is always a tail of the buffer it
was given: waiters only ever strip bytes from the front. -/
theorem runChain_buffer_drop (ws : List Waiter) (buf : List Nat) :
    ∃ k, (runChain ws buf).2.1 = buf.drop k := by
  induction ws generalizing buf with
  | nil => exact ⟨0, by simp [runChain]⟩
  | cons w ws ih =>
    unfold runChain runWaiter
    by_cases h1 : buf.length < w.pattern.length
    · simpa [h1] using ih buf
    · by_cases h2 : w.pattern.length = 0
      · refine ⟨buf.length, ?_⟩
        have h0 : (runChain ws []).2.1 = [] := by
          obtain ⟨k, hk⟩ := ih []
          simpa using hk
        simp [h1, h2, List.drop_length, h0]
      · by_cases h3 : buf.take w.pattern.length = w.pattern
        · obtain ⟨k, hk⟩ := ih (buf.drop w.pattern.length)
          refine ⟨w.pattern.length + k, ?_⟩
          simp only [h1, if_false, h2, h3, if_true, hk, List.drop_drop]
        · simpa [h1, h2, h3] using ih buf

/-! ## Helper lemmas about the probe loop -/

/-- Closed form of the probe recursion: starting `d` ticks away from the
bound, the loop performs `d + 1` writes before giving up (the final tick
writes before noticing the bound is exceeded). -/
theorem probeAux_eq (bound : Nat) :
    ∀ d count, bound = count + d → probeAux bound count = d + 1 := by
  intro d
  induction d with
  | zero =>
    intro count h
    rw [probeAux, if_pos (by omega)]
  | succ d ih =>
    intro count h
    rw [probeAux, if_neg (by omega), ih (count + 1) (by omega)]
    omega

/-- A failed acquisition with attempt bound `bound` performs exactly
`bound + 1` probe writes. -/
theorem probeWriteCount_eq (bound : Nat) : probeWriteCount bound = bound + 1 :=
  probeAux_eq bound bound 0 (by omega)

/-! ## Claims -/

/-- C1: registering any number of matchers with distinct (nonempty)
exact byte patterns and feeding the single buffer that concatenates all
the patterns in registration order resolves every matcher in
registration order, each with its own pattern — each consumed exactly
its pattern's length from the front, so the final buffer is empty and
no waiter is left pending. (Zero-length patterns are the spec's
"match anything" sentinel, handled by a separate branch of the feed
algorithm, so they are excluded from "exact byte patterns" here.) -/
theorem c1_concat_resolves_in_order (ws : List Waiter)
    (hdist : (ws.map fun w => w.pattern).Pairwise (· ≠ ·))
    (hne : ∀ w ∈ ws, w.pattern ≠ []) :
    feed ⟨ws, [], []⟩ (List.flatten (ws.map fun w => w.pattern)) =
      ⟨[], [], ws.map fun w => (w.id, Outcome.matched w.pattern)⟩ := by
  cases ws with
  | nil => simp [feed]
  | cons w ws =>
    unfold feed
    rw [if_pos (by simp)]
    simp only [List.nil_append]
    rw [runChain_flatten (w :: ws) hne]

/-- C1 witness: two matchers with patterns `[1]` and `[2, 3]`, fed
`[1, 2, 3]`, both resolve in order and the buffer is fully consumed. -/
theorem c1_witness :
    feed ⟨[⟨0, [1]⟩, ⟨1, [2, 3]⟩], [], []⟩ [1, 2, 3] =
      ⟨[], [], [(0, Outcome.matched [1]), (1, Outcome.matched [2, 3])]⟩ := by
  have h := c1_concat_resolves_in_order [⟨0, [1]⟩, ⟨1, [2, 3]⟩]
    (by simp) (by simp)
  simpa using h

/-- C2 (code bug): the claim says each flag independently controls its
own bit of the written command byte. The source computes `(o.clk < 2)`
— a comparison, not the shift `(o.clk << 2)` — which is true for both
boolean values and coerces to `1`: bit 0 is therefore always set (even
with `cs` false) and `clk` never affects any bit. With every flag at
its default `false` the code writes `0x81` where the one-bit-per-flag
encoding (`configPeriphCodeSpec`, stated from the spec) gives `0x80`;
setting `clk` changes nothing. (The claim's concrete scenario
`{power, cs}` → `0xC1` does hold, coincidentally: the always-set bit 0
equals the `cs` bit there.) -/
theorem c2_clk_comparison_bug :
    configPeriphCode periphDefaults = 0x81 ∧
    configPeriphCodeSpec periphDefaults = 0x80 ∧
    configPeriphCode { periphDefaults with clk := true } =
      configPeriphCode { periphDefaults with clk := false } ∧
    configPeriphCodeSpec { periphDefaults with clk := true } = 0x84 ∧
    configPeriphCode
      (mergePeriph { noPeriphOptsIn with power := some true, cs := some true }) = 0xC1 := by
  decide

/-- C3 counterexample: a matcher registered with the textual pattern
`"AB"` and a buffer whose decoded text `"xAB"` contains the pattern
after one noise byte does **not** resolve: `expect` converts the string
to bytes up front, the `RegExp` scan branch is unreachable, and the
byte comparison is anchored at the buffer's start, so the matcher stays
pending and nothing is consumed. -/
theorem c3_noise_blocks_textual_match :
    (feed ⟨[⟨0, stringBytes "AB"⟩], [], []⟩ (stringBytes "xAB")).resolutions = [] ∧
    (feed ⟨[⟨0, stringBytes "AB"⟩], [], []⟩ (stringBytes "xAB")).waiters =
      [⟨0, stringBytes "AB"⟩] := by
  constructor <;> rfl

/-- C3 amended: a textual pattern is byte-encoded and matched only as an
exact anchored byte sequence; whenever the buffer does not start with
the pattern (in particular when noise bytes precede an occurrence), the
matcher remains pending, nothing resolves, and the whole buffer is
retained unchanged. -/
theorem c3_textual_pattern_anchored (p noise rest : List Nat) (hp : p ≠ [])
    (hmis : (noise ++ p ++ rest).take p.length ≠ p) :
    feed ⟨[⟨0, p⟩], [], []⟩ (noise ++ p ++ rest) =
      ⟨[⟨0, p⟩], noise ++ p ++ rest, []⟩ := by
  have h := feed_single_state p hp 0 [] (noise ++ p ++ rest) []
  rw [List.nil_append] at h
  rw [h, if_neg hmis]

/-- C3 witness: pattern `"AB"` (`[65, 66]`), noise `"x"` (`[120]`). -/
theorem c3_amended_witness :
    feed ⟨[⟨0, [65, 66]⟩], [], []⟩ ([120] ++ [65, 66] ++ []) =
      ⟨[⟨0, [65, 66]⟩], [120] ++ [65, 66] ++ [], []⟩ :=
  c3_textual_pattern_anchored [65, 66] [120] [] (by decide) (by decide)

/-- C4 counterexample: when the probe loop exhausts its budget the code
runs `this.waiters = []` and rejects only the acquisition promise. The
pending `'BBIO1'` matcher registered by `enter_binmode` is removed from
the collection but its promise is never resolved or rejected: the
resolution log stays empty, so the matcher's future is left forever
unresolved — the claim that every pending matcher is resolved with the
error fails. -/
theorem c4_exhaust_leaves_matcher_unresolved :
    (exhaustStep "cannot acquire binary mode"
      ⟨[⟨0, stringBytes "BBIO1"⟩], [], []⟩).waiters = [] ∧
    (exhaustStep "cannot acquire binary mode"
      ⟨[⟨0, stringBytes "BBIO1"⟩], [], []⟩).resolutions = [] := by
  constructor <;> rfl

/-- C4 amended: exhausting the retry budget clears the pending-matcher
collection but resolves none of the pending matchers — the error is
delivered only to the `enter_binmode` caller, and every matcher that
was pending keeps whatever (absent) resolution it had, its future
unresolved. -/
theorem c4_exhaust_clears_without_resolving (err : String) (s : MatcherState) :
    (exhaustStep err s).waiters = [] ∧
    (exhaustStep err s).resolutions = s.resolutions :=
  ⟨rfl, rfl⟩

/-- C5 (code bug): with the acknowledgment never arriving, the probe
loop writes a zero byte and **then** checks the count, stopping once
`count > 25`: it performs 26 probe writes, not the 25 the claim (and
the code's own comment, "max 25 times") states. -/
theorem c5_probe_writes_26 :
    probeWriteCount 25 = 26 ∧ probeWriteCount 25 ≠ 25 := by
  rw [probeWriteCount_eq]
  omega

/-- C6 counterexample: a single matcher registered with the zero-length
sentinel. Fed one byte at a time it resolves with the first byte alone
(`[97]`), the second chunk arriving after no waiter is pending; fed the
concatenated chunk it resolves with both bytes (`[97, 98]`). The final
resolutions differ, so chunk-boundary independence fails for the
sentinel. -/
theorem c6_sentinel_chunk_dependent :
    (feedBytes ⟨[⟨0, []⟩], [], []⟩ [97, 98]).resolutions ≠
      (feed ⟨[⟨0, []⟩], [], []⟩ [97, 98]).resolutions := by
  decide

/-- C6 amended: chunk-boundary independence holds for a single matcher
registered with a nonempty exact byte pattern — feeding any byte
sequence one byte at a time yields the same final resolutions as
feeding it as one chunk. (It fails for the zero-length sentinel, whose
resolution value is the chunk-dependent current buffer, and also with
several pending matchers, since a younger matcher's consumption can
unblock an older one only on a subsequent feed cycle.) -/
theorem c6_single_exact_chunk_independent (p : List Nat) (hp : p ≠ [])
    (bs : List Nat) :
    (feedBytes ⟨[⟨0, p⟩], [], []⟩ bs).resolutions =
      (feed ⟨[⟨0, p⟩], [], []⟩ bs).resolutions := by
  have hL := feedBytes_single p hp 0 bs [] [] (by simpa using Ne.symm hp)
  have hR := feed_single_state p hp 0 [] bs []
  rw [List.nil_append] at hL hR
  by_cases h : bs.take p.length = p
  · rw [hL, if_pos h, hR, if_pos h]
  · rw [hL, if_neg h, hR, if_neg h]

/-- C6 witness: pattern `[7]` fed `[7, 8]` byte-by-byte and whole. -/
theorem c6_amended_witness :
    (feedBytes ⟨[⟨0, [7]⟩], [], []⟩ [7, 8]).resolutions =
      (feed ⟨[⟨0, [7]⟩], [], []⟩ [7, 8]).resolutions :=
  c6_single_exact_chunk_independent [7] (by decide) [7, 8]

/-- C7 counterexample: `write_block` given 17 bytes executes
`return new Error('Cannot send more than 16 bytes at once')` — it
returns the `Error` as a plain value instead of rejecting. A caller
chaining `p.then(() => write_block(chunk))` therefore observes a
**fulfilled** promise whose value is the `Error` (`Except.ok (.inl _)`),
not the error outcome (`Except.error`) the claim requires. -/
theorem c7_size_error_returned_as_value :
    writeBlockRet true (List.replicate 17 0) =
      WBRet.errValue "Cannot send more than 16 bytes at once" ∧
    writeBlockCaller true (List.replicate 17 0) =
      Except.ok (Sum.inl "Cannot send more than 16 bytes at once") := by
  constructor <;> rfl

/-- C7 amended: `write_block` does produce the size error for more than
16 bytes and the not-started error when the driver was never started
(size checked first), but in both cases the `Error` is *returned* as an
ordinary value, so a promise-chaining caller sees it as a fulfilled
value, never as the rejection/error outcome of the call. -/
theorem c7_errors_fulfill_not_reject (started : Bool) (buffer : List Nat) :
    (buffer.length > 16 →
      writeBlockCaller started buffer =
        Except.ok (Sum.inl "Cannot send more than 16 bytes at once")) ∧
    (buffer.length ≤ 16 → started = false →
      writeBlockCaller started buffer =
        Except.ok (Sum.inl "Uart must be started before writing")) := by
  constructor
  · intro h
    unfold writeBlockCaller writeBlockRet
    rw [if_pos h]
  · intro h hs
    unfold writeBlockCaller writeBlockRet
    rw [if_neg (by omega), if_pos hs]

/-- C7 witness: a 17-byte buffer with the driver started, and a 1-byte
buffer with the driver not started. -/
theorem c7_witness :
    writeBlockCaller true (List.replicate 17 1) =
      Except.ok (Sum.inl "Cannot send more than 16 bytes at once") ∧
    writeBlockCaller false [1] =
      Except.ok (Sum.inl "Uart must be started before writing") :=
  ⟨(c7_errors_fulfill_not_reject true (List.replicate 17 1)).1 (by simp),
   (c7_errors_fulfill_not_reject false [1]).2 (by simp) rfl⟩

/-- C8: with the driver started and the session not in bridge mode, a
20-byte payload is cut into exactly two blocks of 16 then 4 bytes,
written in order; each block writes its command byte (`0x1f` then
`0x13`), awaits one `0x01` ack, writes its chunk, and awaits one `0x01`
per payload byte (16 then 4). And if the first block's promise rejects,
the second block is never attempted. -/
theorem c8_twenty_byte_write (payload : List Nat) (h20 : payload.length = 20)
    (mode : String) (hm : mode ≠ "uart_bridge") :
    uartWriteTrace true mode payload =
      [Action.write [0x1f], Action.expect [0x1],
       Action.write (payload.take 16), Action.expect (List.replicate 16 0x01),
       Action.write [0x13], Action.expect [0x1],
       Action.write (payload.drop 16), Action.expect (List.replicate 4 0x01)] ∧
    chainBlocks [true] (chunkSubstr payload) = [payload.take 16] := by
  have hd : (payload.drop 16).take 16 = payload.drop 16 :=
    List.take_of_length_le (by simp [List.length_drop, h20])
  have hc : chunkSubstr payload = [payload.take 16, payload.drop 16] := by
    simp [chunkSubstr, h20, List.range_succ, hd]
  have hl1 : (payload.take 16).length = 16 := by
    simp [List.length_take, h20]
  have hl2 : (payload.drop 16).length = 4 := by
    simp [List.length_drop, h20]
  constructor
  · simp [uartWriteTrace, hm, hc, writeBlockRet, blockTrace, hl1, hl2]
  · rw [hc]
    rfl

/-- C8 witness: the payload `0, 1, …, 19`. -/
theorem c8_witness :
    uartWriteTrace true "uart" (List.range 20) =
      [Action.write [0x1f], Action.expect [0x1],
       Action.write ((List.range 20).take 16),
       Action.expect (List.replicate 16 0x01),
       Action.write [0x13], Action.expect [0x1],
       Action.write ((List.range 20).drop 16),
       Action.expect (List.replicate 4 0x01)] ∧
    chainBlocks [true] (chunkSubstr (List.range 20)) = [(List.range 20).take 16] :=
  c8_twenty_byte_write (List.range 20) (by simp) "uart" (by decide)

/-- C9 counterexample: a chunk arriving while no matcher is pending is
discarded — the handler's `if(self.waiters.length > 0)` guards the
`Buffer.concat`, so the buffer does not grow. -/
theorem c9_chunk_dropped_without_waiters :
    feed ⟨[], [], []⟩ [1] = ⟨[], [], []⟩ ∧
    (feed ⟨[], [], []⟩ [1]).buffer ≠ [1] := by
  constructor <;> decide

/-- C9 amended: an inbound chunk is appended to the buffer only when at
least one matcher is pending — with none pending the whole state (in
particular the buffer) is unchanged and the chunk is lost; when some
matcher is pending, the new buffer is a tail of `old buffer ++ chunk`,
i.e. it grows by the chunk and then shrinks only by matchers consuming
a prefix. -/
theorem c9_buffer_growth_requires_waiter (s : MatcherState) (c : List Nat) :
    (s.waiters = [] → feed s c = s) ∧
    (s.waiters ≠ [] →
      (feed s c).buffer =
        (s.buffer ++ c).drop
          ((s.buffer ++ c).length - (feed s c).buffer.length)) := by
  constructor
  · intro h
    exact feed_no_waiters s h c
  · intro h
    have hpos : 0 < s.waiters.length := List.length_pos.mpr h
    have hbuf : (feed s c).buffer = (runChain s.waiters (s.buffer ++ c)).2.1 := by
      simp [feed, hpos]
    obtain ⟨k, hk⟩ := runChain_buffer_drop s.waiters (s.buffer ++ c)
    rw [hbuf, hk, List.length_drop]
    by_cases hkL : k ≤ (s.buffer ++ c).length
    · congr 1
      omega
    · have h1 : (s.buffer ++ c).drop k = [] :=
        List.drop_eq_nil_of_le (by omega)
      have h2 :
          (s.buffer ++ c).drop
            ((s.buffer ++ c).length - ((s.buffer ++ c).length - k)) = [] :=
        List.drop_eq_nil_of_le (by omega)
      rw [h1, h2]

/-- C9 witness: an empty-waiter state dropping `[1]`, and a one-waiter
state where the chunk is appended (nothing matches, nothing is
consumed). -/
theorem c9_amended_witness :
    feed ⟨[], [5], []⟩ [1] = ⟨[], [5], []⟩ ∧
    (feed ⟨[⟨0, [7]⟩], [], []⟩ [1]).buffer =
      (([] : List Nat) ++ [1]).drop
        ((([] : List Nat) ++ [1]).length -
          (feed ⟨[⟨0, [7]⟩], [], []⟩ [1]).buffer.length) :=
  ⟨(c9_buffer_growth_requires_waiter ⟨[], [5], []⟩ [1]).1 rfl,
   (c9_buffer_growth_requires_waiter ⟨[⟨0, [7]⟩], [], []⟩ [1]).2 (by decide)⟩

/-- C10: `'uart_bridge'` is terminal — once the session mode is the
bridge mode, no engine operation (`enter_binmode`, `switch_mode`,
`uart_bridge`, `uart.start`, `uart.setopts`, `echo_rx`, `uart.write`,
`config_periph`), whatever the outcomes of its writes and awaited
acknowledgments, assigns the mode any other value. -/
theorem c10_bridge_terminal (s : Session) (op : EngineOp)
    (h : s.mode = "uart_bridge") :
    (engineStep op s).mode = "uart_bridge" := by
  cases op with
  | enterBin a => simp [engineStep, enterBinmodeStep, h]
  | switchMode n a k => simp [engineStep, switchModeStep, h]
  | uartBridge => simp [engineStep, uartBridgeStep, h]
  | uartStart a k => simp [engineStep, uartStartStep, switchModeStep, h]
  | uartSetopts st a k =>
    cases st <;>
      simp [engineStep, uartSetoptsStep, uartStartStep, switchModeStep, h]
  | uartEcho e => simpa [engineStep] using h
  | uartWrite b => simpa [engineStep] using h
  | configPeriph => simpa [engineStep] using h

/-- C10 witness: a `switch_mode` request issued in bridge mode leaves
the mode untouched. -/
theorem c10_witness :
    (engineStep (EngineOp.switchMode "spi" true true) ⟨"uart_bridge"⟩).mode =
      "uart_bridge" :=
  c10_bridge_terminal ⟨"uart_bridge"⟩ (EngineOp.switchMode "spi" true true) rfl

end BusPirate
